import Mathlib

/-!
# Verification of the Tw_stock_DB_Operating ingestion pipeline

A shallow embedding of the repository's core logic:

* `DataUploadBase` (src/data_upload/base.py): daily crawl / schema check /
  stock-name registry / upload pipeline, modelled as pure state passing over
  an explicit relational-store state `DB`.
* `QuarterRevenueUploader` (src/data_upload/quarter_revenue.py): fuzzy column
  mapping, table cleaning and the quarterly upload pipeline.
* The job tracker of src/web_server.py: the worker loop `run_upload_job` and
  a transition system for the jobs map guarded by `jobs_lock`.

Pandas DataFrames are modelled as lists of association-list records, pydantic
models as field-spec lists with per-type coercion, and SQL tables as lists.
-/

namespace TwStock

/-- A cell / field value (JSON scalar, pandas cell, or validated value).
`null` stands for Python `None` / pandas `NaN` / `pd.NA`. -/
inductive Val where
  | str (s : String)
  | int (n : Int)
  | float (q : Rat)
  | null
deriving DecidableEq, Repr

/-- Field types occurring in the pydantic `UploadType` models. -/
inductive FType where
  | tStr
  | tInt
  | tFloat
  | tDate
deriving DecidableEq, Repr

/-- One pydantic model field: a name, a type, and whether it is required
(`Optional[...] = None` fields have `required = false`). -/
structure FieldSpec where
  name : String
  ty : FType
  required : Bool
deriving DecidableEq, Repr

/-- Parse a nonempty all-digit character list as a natural number. -/
def digitsToNat (cs : List Char) : Nat :=
  cs.foldl (fun a c => a * 10 + (c.toNat - 48)) 0

/-- All characters are decimal digits and the list is nonempty. -/
def allDigits (cs : List Char) : Bool :=
  !cs.isEmpty && cs.all (fun c => c.isDigit)

/-- Numeric-string parsing: optional sign, digits, optional fractional part.
Models Python `int(...)`/`float(...)`/`pandas.to_numeric` acceptance of plain
decimal literals. -/
def parseNumStr (s : String) : Option Rat :=
  let cs := s.data
  let signAndRest : Bool × List Char :=
    match cs with
    | '-' :: rest => (true, rest)
    | _ => (false, cs)
  let neg := signAndRest.1
  let body := signAndRest.2
  match body.splitOn '.' with
  | [ip] =>
      if allDigits ip then
        let v : Rat := (digitsToNat ip : Int)
        some (if neg then -v else v)
      else none
  | [ip, fp] =>
      if allDigits ip && allDigits fp then
        let num : Int := (digitsToNat ip) * 10 ^ fp.length + digitsToNat fp
        let v : Rat := mkRat num (10 ^ fp.length)
        some (if neg then -v else v)
      else none
  | _ => none

/-- ISO `YYYY-MM-DD` shape check: models the datetime strings accepted by the
pydantic `datetime` fields as they occur in this system. -/
def isDateStr (s : String) : Bool :=
  match s.data with
  | [y1, y2, y3, y4, '-', m1, m2, '-', d1, d2] =>
      y1.isDigit && y2.isDigit && y3.isDigit && y4.isDigit &&
      m1.isDigit && m2.isDigit && d1.isDigit && d2.isDigit
  | _ => false

/-- Pydantic type coercion for one non-null value. -/
def coerceVal : FType → Val → Option Val
  | .tStr, .str s => some (.str s)
  | .tStr, _ => none
  | .tInt, .int n => some (.int n)
  | .tInt, .str s => (s.toInt?).map .int
  | .tInt, .float q => if q.den = 1 then some (.int q.num) else none
  | .tInt, .null => none
  | .tFloat, .int n => some (.float n)
  | .tFloat, .float q => some (.float q)
  | .tFloat, .str s => (parseNumStr s).map .float
  | .tFloat, .null => none
  | .tDate, .str s => if isDateStr s then some (.str s) else none
  | .tDate, _ => none

/-- A raw or validated record: an association list of (column, value). -/
abbrev Record := List (String × Val)

/-- First value bound to key `k` in a record (Python dict access). -/
def lookupField (rec : Record) (k : String) : Option Val :=
  (rec.find? (fun p => p.1 == k)).map (fun p => p.2)

/-- Validate one field: a missing or null value is accepted as `null` exactly
for optional fields; otherwise the value must coerce to the field type. -/
def validateField (fs : FieldSpec) (v : Option Val) : Option Val :=
  match v with
  | none => if fs.required then none else some .null
  | some .null => if fs.required then none else some .null
  | some w => coerceVal fs.ty w

/-- Validate one record against a pydantic model: every field of the schema is
validated, producing the model's fields in declaration order. Returns `none`
(a raised `ValidationError`) if any field fails. -/
def validateRecord (schema : List FieldSpec) (rec : Record) : Option Record :=
  match schema with
  | [] => some []
  | fs :: rest =>
      match validateField fs (lookupField rec fs.name), validateRecord rest rec with
      | some v, some vs => some ((fs.name, v) :: vs)
      | _, _ => none

/-- `DataUploadBase.check_schema`: validate every record of the batch; the
first failing record raises, so the whole call yields `none` (all-or-nothing). -/
def check_schema (schema : List FieldSpec) : List Record → Option (List Record)
  | [] => some []
  | r :: rs =>
      match validateRecord schema r, check_schema schema rs with
      | some v, some vs => some (v :: vs)
      | _, _ => none

/-- One source uploader variant (subclass of `DataUploadBase`): its pydantic
schema, the columns its `preprocess` drops, and the optional
`(stock_code_col, stock_name_col)` pair. -/
structure Source where
  schema : List FieldSpec
  dropCols : List String
  codeNameCols : Option (String × String)
deriving DecidableEq, Repr

/-- `preprocess`: drop the descriptive columns from every record
(`df.drop(columns=[...])`). -/
def preprocessRecords (drops : List String) (batch : List Record) : List Record :=
  batch.map (fun r => r.filter (fun p => !drops.contains p.1))

/-- The relational-store state a daily uploader touches: the `DailyPrice`,
`StockName` and `UploadDate` tables. -/
structure DB where
  dailyPrice : List Record
  stockName : List (Val × Val)
  uploadDate : List (String × Bool)
deriving DecidableEq, Repr

/-- `DataUploadBase.check_date`: `SELECT COUNT(*) FROM UploadDate WHERE Date = date`
is nonzero. -/
def check_date (db : DB) (date : String) : Bool :=
  db.uploadDate.any (fun p => p.1 == date)

/-- Outcome of one crawler request in `craw_data`:
`requests.get` transport failure, `raise_for_status` on an error status,
`KeyError` on a missing `"data"` field, `ValueError` on malformed JSON,
or a successful record list. -/
inductive CrawlResponse where
  | transportError
  | httpError (code : Nat)
  | missingDataField
  | malformedJson
  | ok (records : List Record)
deriving DecidableEq, Repr

/-- The response is one of the caught failure cases. -/
def CrawlResponse.isFailure : CrawlResponse → Bool
  | .ok _ => false
  | _ => true

/-- `DataUploadBase.craw_data`: every caught failure is swallowed into an
empty DataFrame. -/
def craw_data : CrawlResponse → List Record
  | .ok records => records
  | _ => []

/-- Result of `register_stock_names`: the new store state, how many
`SELECT ... FROM StockName` queries ran, and the rows bulk-inserted. -/
structure RegResult where
  db : DB
  queries : Nat
  insertedRows : List (Val × Val)
deriving DecidableEq, Repr

/-- `df[[code, name]]` column extraction per record (a missing key is a
pandas `NaN`, modelled as `null`). -/
def extractCodeName (code nameCol : String) (batch : List Record) :
    List (Val × Val) :=
  batch.map (fun r =>
    ((lookupField r code).getD .null, (lookupField r nameCol).getD .null))

/-- `drop_duplicates(subset=[code])`: keep the first occurrence of each code. -/
def dedupByCodeAux : List (Val × Val) → List Val → List (Val × Val)
  | [], _ => []
  | p :: rest, seen =>
      if p.1 ∈ seen then dedupByCodeAux rest seen
      else p :: dedupByCodeAux rest (p.1 :: seen)

/-- Deduplicate an extracted (code, name) list by code. -/
def dedupByCode (l : List (Val × Val)) : List (Val × Val) :=
  dedupByCodeAux l []

/-- The `new_stocks` frame of `register_stock_names` right before the bulk
insert: the batch's (code, name) pairs deduplicated by code, minus the codes
already in `StockName` (`~new_stocks[code].isin(existing_codes)`). -/
def newStockRows (code nameCol : String) (db : DB) (batch : List Record) :
    List (Val × Val) :=
  (dedupByCode (extractCodeName code nameCol batch)).filter
    (fun p => !(db.stockName.map (fun q => q.1)).contains p.1)

/-- `DataUploadBase.register_stock_names`: skip when no code/name column pair
is declared; otherwise deduplicate the batch by code, query existing codes,
and bulk-insert only codes not already present. -/
def register_stock_names (src : Source) (db : DB) (batch : List Record) :
    RegResult :=
  match src.codeNameCols with
  | none => ⟨db, 0, []⟩
  | some (code, nameCol) =>
      let new_stocks := newStockRows code nameCol db batch
      if new_stocks.isEmpty then ⟨db, 1, []⟩
      else ⟨{ db with stockName := db.stockName ++ new_stocks }, 1, new_stocks⟩

/-- `DataUploadBase.upload_df`: preprocess, validate, and append to
`DailyPrice`. A validation failure raises (`none`) before anything is
written. -/
def upload_df (src : Source) (db : DB) (batch : List Record) : Option DB :=
  match check_schema src.schema (preprocessRecords src.dropCols batch) with
  | none => none
  | some validated => some { db with dailyPrice := db.dailyPrice ++ validated }

/-- `DataUploadBase.upload_date`: insert the `(date, Open)` marker, with
`Open = (df.shape[0] != 0)`. -/
def upload_date (db : DB) (date : String) (batch : List Record) : DB :=
  if batch.length ≠ 0 then
    { db with uploadDate := db.uploadDate ++ [(date, true)] }
  else
    { db with uploadDate := db.uploadDate ++ [(date, false)] }

/-- Result of one `DataUploadBase.upload(date)` call: the resulting store
state, the number of crawler requests issued, and whether an exception
propagated out of the call. -/
structure UploadResult where
  db : DB
  fetchCalls : Nat
  raised : Bool
deriving DecidableEq, Repr

/-- `DataUploadBase.upload`: skip when the date marker exists; otherwise crawl
once; on a nonempty result register stock names, then validate and append
(an exception from validation propagates after the registry commit); finally
write the date marker. -/
def upload (src : Source) (db : DB) (resp : CrawlResponse) (date : String) :
    UploadResult :=
  if check_date db date then ⟨db, 0, false⟩
  else
    let records := craw_data resp
    if records.length > 0 then
      let db1 := (register_stock_names src db records).db
      match upload_df src db1 records with
      | none => ⟨db1, 1, true⟩
      | some db2 => ⟨upload_date db2 date records, 1, false⟩
    else
      ⟨upload_date db date records, 1, false⟩

/-- The TWSE uploader (src/data_upload/twse.py): full required schema,
`preprocess` drops `StockName`, and it declares the code/name pair. -/
def twse : Source where
  schema := [
    ⟨"Date", .tDate, true⟩,
    ⟨"SecurityCode", .tStr, true⟩,
    ⟨"TradeVolume", .tInt, true⟩,
    ⟨"Transaction", .tInt, true⟩,
    ⟨"TradeValue", .tInt, true⟩,
    ⟨"OpeningPrice", .tFloat, true⟩,
    ⟨"HighestPrice", .tFloat, true⟩,
    ⟨"LowestPrice", .tFloat, true⟩,
    ⟨"ClosingPrice", .tFloat, true⟩,
    ⟨"Change", .tFloat, true⟩,
    ⟨"LastBestBidPrice", .tFloat, true⟩,
    ⟨"LastBestBidVolume", .tInt, true⟩,
    ⟨"LastBestAskPrice", .tFloat, true⟩,
    ⟨"LastBestAskVolume", .tInt, true⟩,
    ⟨"PriceEarningratio", .tFloat, true⟩]
  dropCols := ["StockName"]
  codeNameCols := some ("SecurityCode", "StockName")

/-- The TAIFEX uploader (src/data_upload/taifex.py): mixed required/optional
schema, identity `preprocess`, and no code/name column pair. -/
def taifex : Source where
  schema := [
    ⟨"Date", .tDate, true⟩,
    ⟨"Contract", .tStr, true⟩,
    ⟨"ContractMonth", .tStr, true⟩,
    ⟨"Open", .tFloat, false⟩,
    ⟨"High", .tFloat, false⟩,
    ⟨"Low", .tFloat, false⟩,
    ⟨"Last", .tFloat, false⟩,
    ⟨"Change", .tFloat, false⟩,
    ⟨"ChangePercent", .tFloat, false⟩,
    ⟨"Volume", .tInt, true⟩,
    ⟨"SettlementPrice", .tFloat, false⟩,
    ⟨"OpenInterest", .tFloat, false⟩,
    ⟨"BestBid", .tFloat, false⟩,
    ⟨"BestAsk", .tFloat, false⟩,
    ⟨"HistoricalHigh", .tFloat, false⟩,
    ⟨"HistoricalLow", .tFloat, false⟩,
    ⟨"TradingHalt", .tFloat, false⟩,
    ⟨"TradingSession", .tStr, true⟩,
    ⟨"SpreadOrderVolume", .tFloat, false⟩]
  dropCols := []
  codeNameCols := none

/-! ## Quarterly filing extractor (src/data_upload/quarter_revenue.py) -/

/-- `COLUMN_KEYWORD_MAPPING`: the ordered keyword → canonical-field pairs, in
the dict's insertion order (the compound non-operating-income phrase comes
before the operating-income and revenue phrases it contains). -/
def COLUMN_KEYWORD_MAPPING : List (String × String) := [
  ("公司代號", "CompanyCode"),
  ("公司名稱", "CompanyName"),
  ("產業別", "Industry"),
  ("基本每股盈餘", "EPS"),
  ("普通股每股面額", "ParValue"),
  ("營業外收入及支出", "NonOperatingIncome"),
  ("營業利益", "OperatingIncome"),
  ("營業收入", "Revenue"),
  ("稅後淨利", "NetIncome")]

/-- Python substring containment `needle in haystack`. -/
def strContains (haystack needle : String) : Bool :=
  (List.range (haystack.data.length + 1)).any
    (fun i => needle.data.isPrefixOf (haystack.data.drop i))

/-- `QuarterRevenueUploader._build_column_mapping`: for each column, the
first keyword of `COLUMN_KEYWORD_MAPPING` occurring as a substring gives the
canonical field (the inner loop breaks at the first hit); unmatched columns
are left out of the mapping. -/
def build_column_mapping (columns : List String) : List (String × String) :=
  columns.filterMap (fun col =>
    (COLUMN_KEYWORD_MAPPING.find? (fun kw => strContains col kw.1)).map
      (fun kw => (col, kw.2)))

/-- The field names of the pydantic `QuarterRevenueType` model. -/
def quarterModelFields : List String :=
  ["Year", "Season", "CompanyCode", "TYPEK", "CompanyName", "Industry",
   "EPS", "ParValue", "Revenue", "OperatingIncome", "NonOperatingIncome",
   "NetIncome"]

/-- The pydantic `QuarterRevenueType` schema, fields in declaration order. -/
def quarterRevenueSchema : List FieldSpec := [
  ⟨"Year", .tInt, true⟩,
  ⟨"Season", .tInt, true⟩,
  ⟨"CompanyCode", .tStr, true⟩,
  ⟨"TYPEK", .tStr, true⟩,
  ⟨"CompanyName", .tStr, false⟩,
  ⟨"Industry", .tStr, false⟩,
  ⟨"EPS", .tFloat, false⟩,
  ⟨"ParValue", .tStr, false⟩,
  ⟨"Revenue", .tInt, false⟩,
  ⟨"OperatingIncome", .tInt, false⟩,
  ⟨"NonOperatingIncome", .tInt, false⟩,
  ⟨"NetIncome", .tInt, false⟩]

/-- A parsed HTML table: flattened single-string headers and cell rows. -/
structure Frame where
  headers : List String
  rows : List (List Val)
deriving DecidableEq, Repr

/-- `df.rename(columns=mapping)`. -/
def renameCols (mapping : List (String × String)) (headers : List String) :
    List String :=
  headers.map (fun h => (((mapping.find? (fun p => p.1 == h)).map
    (fun p => p.2)).getD h))

/-- Python `str(...)` on a cell (`astype(str)`); a pandas missing value
stringifies to a non-numeric token. -/
def cellToString : Val → String
  | .str s => s
  | .int n => toString n
  | .float q => toString q
  | .null => "nan"

/-- The placeholder dash glyphs replaced by `pd.NA`. -/
def dashGlyphs : List String := ["--", "－", "―", "—"]

/-- `df.replace(dashGlyphs, pd.NA)` on one cell (exact-value replacement). -/
def replaceDashes (v : Val) : Val :=
  match v with
  | .str s => if dashGlyphs.contains s then .null else .str s
  | w => w

/-- The numeric columns converted by `pd.to_numeric`. -/
def numericCols : List String :=
  ["EPS", "Revenue", "OperatingIncome", "NonOperatingIncome", "NetIncome"]

/-- `.str.replace(",", "")`: delete every comma. -/
def stripCommas (s : String) : String :=
  ⟨s.data.filter (fun c => c ≠ ',')⟩

/-- `pd.to_numeric(cell.astype(str).str.replace(",", ""), errors="coerce")`:
strip thousands separators and parse, unparsable values become `NA`. -/
def toNumericCell (v : Val) : Val :=
  match v with
  | .null => .null
  | w =>
      match parseNumStr (stripCommas (cellToString w)) with
      | some q => .float q
      | none => .null

/-- `CompanyCode` cast to string. -/
def astypeStrCode (rec : Record) : Record :=
  rec.map (fun p =>
    if p.1 == "CompanyCode" then (p.1, Val.str (cellToString p.2)) else p)

/-- `df["CompanyCode"].str.match(r"^\d")`: the code's first character is a
decimal digit. -/
def codeStartsWithDigit (rec : Record) : Bool :=
  match lookupField rec "CompanyCode" with
  | some (.str s) =>
      match s.data with
      | c :: _ => c.isDigit
      | [] => false
  | _ => false

/-- `QuarterRevenueUploader._clean_dataframe`: rename columns through the
fuzzy mapping, keep only canonical fields, require `CompanyCode`, cast codes
to string, drop non-digit-code rows, null the dash glyphs, convert numeric
columns, and stamp year / season / market type. -/
def clean_dataframe (f : Frame) (year season : Int) (typek : String) :
    List Record :=
  let mapping := build_column_mapping f.headers
  let headers := renameCols mapping f.headers
  let keptHeaders := headers.filter (fun h => quarterModelFields.contains h)
  if !(keptHeaders.contains "CompanyCode") then []
  else
    let recs := f.rows.map (fun row =>
      (headers.zip row).filter (fun p => quarterModelFields.contains p.1))
    let recs := recs.map astypeStrCode
    let recs := recs.filter codeStartsWithDigit
    let recs := recs.map (fun rec => rec.map (fun p => (p.1, replaceDashes p.2)))
    let recs := recs.map (fun rec => rec.map (fun p =>
      if numericCols.contains p.1 then (p.1, toNumericCell p.2) else p))
    recs.map (fun rec => rec ++
      [("Year", Val.int year), ("Season", Val.int season),
       ("TYPEK", Val.str typek)])

/-- The quarterly store state: the `QuarterRevenue` table and the
`QuarterRevenueUploaded` marker table (year, season, recordCount). -/
structure QDB where
  quarterRevenue : List Record
  uploaded : List (Int × Int × Nat)
deriving DecidableEq, Repr

/-- `QuarterRevenueUploader.check_uploaded`: a marker row for (year, season)
exists. -/
def check_uploaded (qdb : QDB) (year season : Int) : Bool :=
  qdb.uploaded.any (fun r => r.1 == year && r.2.1 == season)

/-- Result of one `QuarterRevenueUploader.upload` call: the store state, the
number of crawl attempts, and the returned count (`none` models a propagated
validation exception). -/
structure QUploadResult where
  qdb : QDB
  crawlCalls : Nat
  ret : Option Nat
deriving DecidableEq, Repr

/-- `QuarterRevenueUploader.upload`: return 0 untouched when the marker
exists; crawl (the crawl itself swallows failures into an empty frame);
return 0 on an empty result; otherwise validate, append to `QuarterRevenue`,
insert one marker carrying the record count, and return that count. -/
def qr_upload (qdb : QDB) (crawled : List Record) (year season : Int) :
    QUploadResult :=
  if check_uploaded qdb year season then ⟨qdb, 0, some 0⟩
  else if crawled.isEmpty then ⟨qdb, 1, some 0⟩
  else
    match check_schema quarterRevenueSchema crawled with
    | none => ⟨qdb, 1, none⟩
    | some validated =>
        let record_count := validated.length
        ⟨⟨qdb.quarterRevenue ++ validated,
          qdb.uploaded ++ [(year, season, record_count)]⟩,
         1, some record_count⟩

/-! ## Job tracker (src/web_server.py) -/

/-- Job status values of the `upload_jobs` map. -/
inductive JobStatus where
  | pending
  | running
  | completed
  | failed
deriving DecidableEq, Repr

/-- The per-job state mutated by `run_upload_job`. -/
structure Job where
  status : JobStatus
  total : Nat
  completed : Nat
  current_date : String
  current_db : String
  errors : List String
  finished : Bool
deriving DecidableEq, Repr

/-- The job record as `create_upload` inserts it. -/
def initJob : Job :=
  ⟨.pending, 0, 0, "", "", [], false⟩

/-- One iteration of the worker's per-item loop: update the current-item
pointers, attempt `day_upload`, append a formatted error string on a caught
exception, and increment `completed` regardless of success.
`outcome db date = some msg` means that item raises `msg`. -/
def processItem (outcome : String → String → Option String)
    (dbName date : String) (j : Job) : Job :=
  let j := { j with current_date := date, current_db := dbName }
  let j :=
    match outcome dbName date with
    | some msg => { j with errors := j.errors ++ [dbName ++ " " ++ date ++ ": " ++ msg] }
    | none => j
  { j with completed := j.completed + 1 }

/-- `run_upload_job`'s body: set status running and the counters, loop over
databases × dates, and finish with status completed and a finish timestamp. -/
def run_upload_job (dates databases : List String)
    (outcome : String → String → Option String) (j : Job) : Job :=
  let total := dates.length * databases.length
  let j := { j with status := JobStatus.running, total := total, completed := 0 }
  let j := databases.foldl (fun acc dbName =>
    dates.foldl (fun acc2 date => processItem outcome dbName date acc2) acc) j
  { j with status := JobStatus.completed, finished := true }

/-- The error strings the worker records over a run, in processing order. -/
def expectedErrors (dates databases : List String)
    (outcome : String → String → Option String) : List String :=
  (databases.map (fun dbName => dates.filterMap (fun date =>
    (outcome dbName date).map
      (fun msg => dbName ++ " " ++ date ++ ": " ++ msg)))).flatten

/-- The `upload_jobs` map (job id → status, the part the concurrency claim is
about) plus the number of `create_upload` calls that have passed the
running-job check (their first `jobs_lock` section) but not yet inserted
their job (their second `jobs_lock` section). -/
structure TrackerState where
  jobs : List (Nat × JobStatus)
  checkPassed : Nat
deriving DecidableEq, Repr

/-- Some job in the map has status running. -/
def anyRunning (jobs : List (Nat × JobStatus)) : Bool :=
  jobs.any (fun p => p.2 == JobStatus.running)

/-- Number of jobs with status running. -/
def countRunning (jobs : List (Nat × JobStatus)) : Nat :=
  (jobs.filter (fun p => p.2 == JobStatus.running)).length

/-- The first `jobs_lock` section of `create_upload`: if some job is running,
raise HTTP 409 leaving the map untouched; otherwise the request proceeds past
the check. -/
def create_check (s : TrackerState) : Option Nat × TrackerState :=
  if anyRunning s.jobs then (some 409, s)
  else (none, { s with checkPassed := s.checkPassed + 1 })

/-- The second `jobs_lock` section of `create_upload`: insert the new job
with status pending. -/
def insertJob (s : TrackerState) (id : Nat) : TrackerState :=
  { jobs := s.jobs ++ [(id, JobStatus.pending)],
    checkPassed := s.checkPassed - 1 }

/-- Set one job's status (a worker's `upload_jobs[job_id]["status"] = ...`). -/
def setStatus (jobs : List (Nat × JobStatus)) (id : Nat) (st : JobStatus) :
    List (Nat × JobStatus) :=
  jobs.map (fun p => if p.1 == id then (p.1, st) else p)

/-- Interleaving semantics of the tracker: each constructor is one
`jobs_lock`-protected section of `create_upload`, `run_upload_job` or
`run_quarter_revenue_job`. The check and the insert of `create_upload` are
two separate sections, exactly as in the code. -/
inductive TStep : TrackerState → TrackerState → Prop where
  | check (s s' : TrackerState) (h : create_check s = (none, s')) : TStep s s'
  | insert (s : TrackerState) (id : Nat) (hpass : 0 < s.checkPassed)
      (hfresh : ∀ p ∈ s.jobs, p.1 ≠ id) : TStep s (insertJob s id)
  | workerStart (s : TrackerState) (id : Nat)
      (h : (id, JobStatus.pending) ∈ s.jobs) :
      TStep s ⟨setStatus s.jobs id JobStatus.running, s.checkPassed⟩
  | workerComplete (s : TrackerState) (id : Nat)
      (h : (id, JobStatus.running) ∈ s.jobs) :
      TStep s ⟨setStatus s.jobs id JobStatus.completed, s.checkPassed⟩
  | workerFail (s : TrackerState) (id : Nat)
      (h : (id, JobStatus.running) ∈ s.jobs) :
      TStep s ⟨setStatus s.jobs id JobStatus.failed, s.checkPassed⟩

/-- States reachable from the empty jobs map. -/
inductive Reachable : TrackerState → Prop where
  | init : Reachable ⟨[], 0⟩
  | step {s s' : TrackerState} : Reachable s → TStep s s' → Reachable s'

/-! ## Theorems -/

/-- C5: the fuzzy mapping sends each of the six example headers to the first
keyword (in `COLUMN_KEYWORD_MAPPING` priority order) contained in it; all six
canonical targets are distinct, and the compound non-operating-income header
maps to `NonOperatingIncome`. -/
theorem build_column_mapping_ordered_priority :
    build_column_mapping
      ["公司代號", "公司名稱", "產業別", "營業收入", "營業利益", "營業外收入及支出"] =
      [("公司代號", "CompanyCode"), ("公司名稱", "CompanyName"),
       ("產業別", "Industry"), ("營業收入", "Revenue"),
       ("營業利益", "OperatingIncome"),
       ("營業外收入及支出", "NonOperatingIncome")] ∧
    ((build_column_mapping
      ["公司代號", "公司名稱", "產業別", "營業收入", "營業利益", "營業外收入及支出"]).map
        (fun p => p.2)).Nodup := by
  constructor
  · rfl
  · decide

/-- C9: cleaning the two-row example table keeps exactly the company row,
with the code kept as a string, the thousands separators stripped from the
revenue figure, and the year / season / market stamps appended; the subtotal
row, whose code does not start with a digit, is dropped. -/
theorem clean_dataframe_example :
    clean_dataframe
      ⟨["公司代號", "公司名稱", "產業別", "營業收入"],
       [[.str "2330", .str "台積電", .str "半導體業", .str "592,559,000"],
        [.str "合計", .str "", .str "", .str ""]]⟩ 113 1 "sii" =
      [[("CompanyCode", Val.str "2330"), ("CompanyName", Val.str "台積電"),
        ("Industry", Val.str "半導體業"), ("Revenue", Val.float 592559000),
        ("Year", Val.int 113), ("Season", Val.int 1),
        ("TYPEK", Val.str "sii")]] := by
  decide

/-- C1: when an `UploadDate` marker already exists for the date, `upload`
issues no crawler request, raises nothing, and leaves the whole store
unchanged. -/
theorem upload_idempotent_on_marked_date (src : Source) (db : DB)
    (resp : CrawlResponse) (date : String) (b : Bool)
    (h : (date, b) ∈ db.uploadDate) :
    upload src db resp date = ⟨db, 0, false⟩ := by
  have hc : check_date db date = true := by
    simp only [check_date, List.any_eq_true]
    exact ⟨(date, b), h, by simp⟩
  simp [upload, hc]

/-- C1 witness: a store already holding the marker for 2026-01-02. -/
theorem upload_idempotent_on_marked_date_witness :
    ("2026-01-02", true) ∈ (DB.mk [] [] [("2026-01-02", true)]).uploadDate ∧
    upload twse (DB.mk [] [] [("2026-01-02", true)]) CrawlResponse.transportError
      "2026-01-02" = ⟨DB.mk [] [] [("2026-01-02", true)], 0, false⟩ :=
  ⟨by decide,
   upload_idempotent_on_marked_date twse _ CrawlResponse.transportError
     "2026-01-02" true (by decide)⟩

/-- C4: every caught crawler failure yields an empty frame, and `upload` on
an unmarked date then inserts only the `(date, Open = false)` marker: no
`DailyPrice` row, no `StockName` row, one crawl attempt, no exception. -/
theorem upload_fetch_failure_swallowed (src : Source) (db : DB)
    (resp : CrawlResponse) (date : String)
    (hdate : check_date db date = false)
    (hfail : resp.isFailure = true) :
    craw_data resp = [] ∧
    upload src db resp date =
      ⟨{ db with uploadDate := db.uploadDate ++ [(date, false)] }, 1, false⟩ := by
  have hempty : craw_data resp = [] := by
    cases resp <;> simp_all [CrawlResponse.isFailure, craw_data]
  refine ⟨hempty, ?_⟩
  simp [upload, hdate, hempty, upload_date]

/-- C4 witness: a transport error on an empty store. -/
theorem upload_fetch_failure_swallowed_witness :
    check_date (DB.mk [] [] []) "2026-01-02" = false ∧
    CrawlResponse.transportError.isFailure = true ∧
    (craw_data CrawlResponse.transportError = [] ∧
     upload twse (DB.mk [] [] []) CrawlResponse.transportError "2026-01-02" =
       ⟨DB.mk [] [] [("2026-01-02", false)], 0 + 1, false⟩) :=
  ⟨by decide, by decide,
   upload_fetch_failure_swallowed twse (DB.mk [] [] [])
     CrawlResponse.transportError "2026-01-02" (by decide) (by decide)⟩

/-- C8: quarterly upload is idempotent and returns the record count: with an
existing marker it returns 0 touching nothing and without crawling; on an
empty crawl it returns 0 after one crawl attempt and writes nothing;
otherwise it appends exactly the validated rows, inserts one marker whose
`RecordCount` equals the returned count. -/
theorem qr_upload_spec (qdb : QDB) (crawled : List Record)
    (year season : Int) :
    (check_uploaded qdb year season = true →
      qr_upload qdb crawled year season = ⟨qdb, 0, some 0⟩) ∧
    (check_uploaded qdb year season = false → crawled = [] →
      qr_upload qdb crawled year season = ⟨qdb, 1, some 0⟩) ∧
    (∀ validated, check_uploaded qdb year season = false → crawled ≠ [] →
      check_schema quarterRevenueSchema crawled = some validated →
      qr_upload qdb crawled year season =
        ⟨⟨qdb.quarterRevenue ++ validated,
          qdb.uploaded ++ [(year, season, validated.length)]⟩,
         1, some validated.length⟩) := by
  refine ⟨fun h => by simp [qr_upload, h], fun h he => by simp [qr_upload, h, he],
    fun validated h hne hv => ?_⟩
  have hne' : crawled.isEmpty = false := by
    cases crawled with
    | nil => exact absurd rfl hne
    | cons a l => rfl
  simp [qr_upload, h, hne', hv]

/-- C2 counterexample: a state with two running jobs is reachable. The check
and the insert of `create_upload` are two separate `jobs_lock` sections, and
jobs are inserted as pending, so two create requests can both pass the
running-job check, insert two pending jobs, and both workers then set their
job running. -/
theorem tracker_two_running_reachable :
    Reachable ⟨[(0, JobStatus.running), (1, JobStatus.running)], 0⟩ ∧
    ¬ countRunning [(0, JobStatus.running), (1, JobStatus.running)] ≤ 1 := by
  have h0 : Reachable ⟨[], 0⟩ := Reachable.init
  have h1 : Reachable ⟨[], 1⟩ := h0.step (TStep.check _ _ (by decide))
  have h2 : Reachable ⟨[(0, JobStatus.pending)], 0⟩ :=
    h1.step (TStep.insert ⟨[], 1⟩ 0 (by decide) (by decide))
  have h3 : Reachable ⟨[(0, JobStatus.pending)], 1⟩ :=
    h2.step (TStep.check _ _ (by decide))
  have h4 : Reachable ⟨[(0, JobStatus.pending), (1, JobStatus.pending)], 0⟩ :=
    h3.step (TStep.insert ⟨[(0, JobStatus.pending)], 1⟩ 1 (by decide) (by decide))
  have h5 : Reachable ⟨[(0, JobStatus.running), (1, JobStatus.pending)], 0⟩ :=
    h4.step (TStep.workerStart _ 0 (by decide))
  have h6 : Reachable ⟨[(0, JobStatus.running), (1, JobStatus.running)], 0⟩ :=
    h5.step (TStep.workerStart _ 1 (by decide))
  exact ⟨h6, by decide⟩

/-- C2 amended: the running-job check of `create_upload`, executed in its own
`jobs_lock` section, rejects with HTTP 409 and leaves the jobs map (hence
every job's counters) untouched whenever some job is running at check time;
the at-most-one-running invariant itself does not hold, since check and
insert are separate critical sections. -/
theorem create_check_conflict (s : TrackerState)
    (h : anyRunning s.jobs = true) :
    create_check s = (some 409, s) := by
  simp [create_check, h]

/-- C2 amended witness: a map already holding one running job. -/
theorem create_check_conflict_witness :
    anyRunning [(0, JobStatus.running)] = true ∧
    create_check ⟨[(0, JobStatus.running)], 0⟩ =
      (some 409, ⟨[(0, JobStatus.running)], 0⟩) :=
  ⟨by decide, create_check_conflict ⟨[(0, JobStatus.running)], 0⟩ (by decide)⟩

/-- One worker item leaves status, total and the finish flag alone,
increments `completed` by one, and appends the item's formatted error string
exactly when the item raised. -/
theorem processItem_components (outcome : String → String → Option String)
    (dbName date : String) (j : Job) :
    (processItem outcome dbName date j).status = j.status ∧
    (processItem outcome dbName date j).total = j.total ∧
    (processItem outcome dbName date j).finished = j.finished ∧
    (processItem outcome dbName date j).completed = j.completed + 1 ∧
    (processItem outcome dbName date j).errors = j.errors ++
      ((outcome dbName date).map
        (fun m => dbName ++ " " ++ date ++ ": " ++ m)).toList := by
  unfold processItem
  cases outcome dbName date <;> simp

/-- The worker's inner loop over one database's dates: `completed` grows by
the number of dates and the formatted errors of the raising dates are
appended in order. -/
theorem foldl_processItem_spec (outcome : String → String → Option String)
    (dbName : String) (dates : List String) (j : Job) :
    (dates.foldl (fun acc date => processItem outcome dbName date acc) j).status
        = j.status ∧
    (dates.foldl (fun acc date => processItem outcome dbName date acc) j).total
        = j.total ∧
    (dates.foldl (fun acc date => processItem outcome dbName date acc) j).finished
        = j.finished ∧
    (dates.foldl (fun acc date => processItem outcome dbName date acc) j).completed
        = j.completed + dates.length ∧
    (dates.foldl (fun acc date => processItem outcome dbName date acc) j).errors
        = j.errors ++ dates.filterMap (fun date => (outcome dbName date).map
            (fun m => dbName ++ " " ++ date ++ ": " ++ m)) := by
  induction dates generalizing j with
  | nil => simp
  | cons d rest ih =>
      simp only [List.foldl_cons, List.length_cons]
      obtain ⟨hs, ht, hf, hc, he⟩ := ih (processItem outcome dbName d j)
      obtain ⟨ps, pt, pf, pc, pe⟩ := processItem_components outcome dbName d j
      refine ⟨by rw [hs, ps], by rw [ht, pt], by rw [hf, pf], ?_, ?_⟩
      · rw [hc, pc]; omega
      · rw [he, pe]
        cases houtcome : outcome dbName d <;>
          simp [List.filterMap_cons, houtcome]

/-- The worker's outer loop over all databases. -/
theorem foldl_databases_spec (outcome : String → String → Option String)
    (dates databases : List String) (j : Job) :
    (databases.foldl (fun acc dbName => dates.foldl
        (fun acc2 date => processItem outcome dbName date acc2) acc) j).status
      = j.status ∧
    (databases.foldl (fun acc dbName => dates.foldl
        (fun acc2 date => processItem outcome dbName date acc2) acc) j).total
      = j.total ∧
    (databases.foldl (fun acc dbName => dates.foldl
        (fun acc2 date => processItem outcome dbName date acc2) acc) j).finished
      = j.finished ∧
    (databases.foldl (fun acc dbName => dates.foldl
        (fun acc2 date => processItem outcome dbName date acc2) acc) j).completed
      = j.completed + databases.length * dates.length ∧
    (databases.foldl (fun acc dbName => dates.foldl
        (fun acc2 date => processItem outcome dbName date acc2) acc) j).errors
      = j.errors ++ expectedErrors dates databases outcome := by
  induction databases generalizing j with
  | nil => simp [expectedErrors]
  | cons dbName rest ih =>
      simp only [List.foldl_cons, List.length_cons]
      obtain ⟨hs, ht, hf, hc, he⟩ :=
        ih (dates.foldl (fun acc2 date => processItem outcome dbName date acc2) j)
      obtain ⟨ps, pt, pf, pc, pe⟩ := foldl_processItem_spec outcome dbName dates j
      refine ⟨by rw [hs, ps], by rw [ht, pt], by rw [hf, pf], ?_, ?_⟩
      · rw [hc, pc]; ring
      · rw [he, pe, List.append_assoc]
        simp [expectedErrors]

/-- C6: the worker processes every item even when items raise: at
termination `completed = total = dates × databases`, the status is completed
with the finish timestamp set (never failed — `failed` needs an exception
escaping the loop, and every per-item exception is caught), and the error
list holds exactly the formatted error of every raising item. -/
theorem run_upload_job_spec (dates databases : List String)
    (outcome : String → String → Option String) :
    (run_upload_job dates databases outcome initJob).status
        = JobStatus.completed ∧
    (run_upload_job dates databases outcome initJob).finished = true ∧
    (run_upload_job dates databases outcome initJob).total
        = dates.length * databases.length ∧
    (run_upload_job dates databases outcome initJob).completed
        = (run_upload_job dates databases outcome initJob).total ∧
    (run_upload_job dates databases outcome initJob).errors
        = expectedErrors dates databases outcome ∧
    (run_upload_job dates databases outcome initJob).status
        ≠ JobStatus.failed := by
  unfold run_upload_job
  obtain ⟨hs, ht, hf, hc, he⟩ := foldl_databases_spec outcome dates databases
    { initJob with status := JobStatus.running,
                   total := dates.length * databases.length, completed := 0 }
  refine ⟨by simp, by simp, by simpa using ht, ?_, by simpa [initJob] using he, by simp⟩
  simp only [ht, hc]
  simp [initJob, Nat.mul_comm]

/-- Bridge between the Bool `contains` used by the embedding and
membership. -/
theorem contains_iff_mem (l : List Val) (a : Val) :
    l.contains a = true ↔ a ∈ l :=
  List.elem_iff

/-- Codes surviving `drop_duplicates(subset=[code])` are the codes of the
input not already seen. -/
theorem mem_map_fst_dedupByCodeAux (l : List (Val × Val)) (seen : List Val)
    (c : Val) :
    c ∈ (dedupByCodeAux l seen).map (fun p => p.1) ↔
      (c ∈ l.map (fun p => p.1) ∧ c ∉ seen) := by
  induction l generalizing seen with
  | nil => simp [dedupByCodeAux]
  | cons p rest ih =>
      by_cases hp : p.1 ∈ seen
      · rw [dedupByCodeAux, if_pos hp, ih]
        simp only [List.map_cons, List.mem_cons]
        constructor
        · rintro ⟨h1, h2⟩
          exact ⟨Or.inr h1, h2⟩
        · rintro ⟨rfl | h1, h2⟩
          · exact absurd hp h2
          · exact ⟨h1, h2⟩
      · rw [dedupByCodeAux, if_neg hp]
        simp only [List.map_cons, List.mem_cons, ih]
        constructor
        · rintro (rfl | ⟨h1, h2⟩)
          · exact ⟨Or.inl rfl, hp⟩
          · exact ⟨Or.inr h1, fun hc => h2 (Or.inr hc)⟩
        · rintro ⟨h1 | h1, h2⟩
          · exact Or.inl h1
          · by_cases hcp : c = p.1
            · exact Or.inl hcp
            · exact Or.inr ⟨h1, fun hc => hc.elim hcp h2⟩

/-- Deduplication by code leaves no duplicate codes. -/
theorem nodup_map_fst_dedupByCodeAux (l : List (Val × Val)) (seen : List Val) :
    ((dedupByCodeAux l seen).map (fun p => p.1)).Nodup := by
  induction l generalizing seen with
  | nil => simp [dedupByCodeAux]
  | cons p rest ih =>
      by_cases hp : p.1 ∈ seen
      · rw [dedupByCodeAux, if_pos hp]
        exact ih seen
      · rw [dedupByCodeAux, if_neg hp]
        simp only [List.map_cons, List.nodup_cons]
        refine ⟨fun hmem => ?_, ih (p.1 :: seen)⟩
        have := (mem_map_fst_dedupByCodeAux rest (p.1 :: seen) p.1).mp hmem
        exact this.2 (List.mem_cons_self _ _)

/-- The codes of the rows `register_stock_names` inserts are exactly the
batch's codes not already present in `StockName`. -/
theorem mem_map_fst_newStockRows (code nameCol : String) (db : DB)
    (batch : List Record) (c : Val) :
    c ∈ (newStockRows code nameCol db batch).map (fun p => p.1) ↔
      (c ∈ (extractCodeName code nameCol batch).map (fun p => p.1) ∧
       c ∉ db.stockName.map (fun p => p.1)) := by
  unfold newStockRows
  constructor
  · rintro hmem
    rcases List.mem_map.mp hmem with ⟨p, hp, rfl⟩
    rcases List.mem_filter.mp hp with ⟨hdedup, hpred⟩
    have hpred' : (db.stockName.map (fun q => q.1)).contains p.1 = false := by
      revert hpred
      cases (db.stockName.map (fun q => q.1)).contains p.1 <;> simp
    have hnotin : p.1 ∉ db.stockName.map (fun q => q.1) := by
      intro hin
      rw [← contains_iff_mem, hpred'] at hin
      exact Bool.false_ne_true hin
    have hcode : p.1 ∈ (dedupByCode (extractCodeName code nameCol batch)).map
        (fun q => q.1) := List.mem_map.mpr ⟨p, hdedup, rfl⟩
    have := (mem_map_fst_dedupByCodeAux _ [] p.1).mp hcode
    exact ⟨this.1, hnotin⟩
  · rintro ⟨hin, hnotin⟩
    have : c ∈ (dedupByCode (extractCodeName code nameCol batch)).map
        (fun q => q.1) :=
      (mem_map_fst_dedupByCodeAux _ [] c).mpr ⟨hin, by simp⟩
    rcases List.mem_map.mp this with ⟨p, hp, rfl⟩
    refine List.mem_map.mpr ⟨p, List.mem_filter.mpr ⟨hp, ?_⟩, rfl⟩
    simp [hnotin]

/-- `register_stock_names` only ever appends its inserted rows to
`StockName`; `DailyPrice` and `UploadDate` are untouched. -/
theorem register_db_eq (src : Source) (db : DB) (batch : List Record) :
    (register_stock_names src db batch).db.dailyPrice = db.dailyPrice ∧
    (register_stock_names src db batch).db.uploadDate = db.uploadDate ∧
    (register_stock_names src db batch).db.stockName =
      db.stockName ++ (register_stock_names src db batch).insertedRows := by
  unfold register_stock_names
  rcases hcols : src.codeNameCols with _ | ⟨code, nameCol⟩
  · simp
  · by_cases hemp : (newStockRows code nameCol db batch).isEmpty <;>
      simp [hemp]

/-- With a declared pair, the inserted rows are the `new_stocks` frame. -/
theorem register_insertedRows (src : Source) (db : DB) (batch : List Record)
    (code nameCol : String) (hcols : src.codeNameCols = some (code, nameCol)) :
    (register_stock_names src db batch).insertedRows =
      newStockRows code nameCol db batch := by
  unfold register_stock_names
  rw [hcols]
  by_cases hemp : (newStockRows code nameCol db batch).isEmpty
  · simp only [hemp, if_true]
    exact (List.isEmpty_iff.mp hemp).symm
  · simp [hemp]

/-- With a declared pair, the resulting state appends the `new_stocks` frame
to `StockName`. -/
theorem register_db_some (src : Source) (db : DB) (batch : List Record)
    (code nameCol : String) (hcols : src.codeNameCols = some (code, nameCol)) :
    (register_stock_names src db batch).db =
      { db with stockName := db.stockName ++ newStockRows code nameCol db batch } := by
  unfold register_stock_names
  rw [hcols]
  by_cases hemp : (newStockRows code nameCol db batch).isEmpty
  · simp only [hemp, if_true]
    rw [List.isEmpty_iff.mp hemp]
    cases db
    simp
  · simp [hemp]

/-- If every deduplicated batch code is already present, the `new_stocks`
frame is empty. -/
theorem newStockRows_eq_nil_of_subset (code nameCol : String) (db' : DB)
    (batch : List Record)
    (h : ∀ p ∈ dedupByCode (extractCodeName code nameCol batch),
      p.1 ∈ db'.stockName.map (fun q => q.1)) :
    newStockRows code nameCol db' batch = [] := by
  unfold newStockRows
  rw [List.filter_eq_nil_iff]
  intro p hp
  have hc := h p hp
  simp [hc]

/-- After one registration run, every batch code is present, so the next
run's `new_stocks` frame is empty. -/
theorem newStockRows_after_register (src : Source) (db : DB)
    (batch : List Record) (code nameCol : String)
    (hcols : src.codeNameCols = some (code, nameCol)) :
    newStockRows code nameCol (register_stock_names src db batch).db batch = [] := by
  apply newStockRows_eq_nil_of_subset
  intro p hp
  rw [register_db_some src db batch code nameCol hcols]
  simp only [List.map_append, List.mem_append]
  by_cases hin : p.1 ∈ db.stockName.map (fun q => q.1)
  · exact Or.inl hin
  · refine Or.inr (List.mem_map.mpr ⟨p, ?_, rfl⟩)
    unfold newStockRows
    refine List.mem_filter.mpr ⟨hp, ?_⟩
    simp [hin]

/-- C7: registry sync inserts exactly the batch codes not already present,
one row per code even for in-batch duplicates; a second run on the same
input inserts nothing and leaves the store as it was; and with no declared
code/name column pair it performs no query and no insert. -/
theorem register_stock_names_spec (src : Source) (db : DB)
    (batch : List Record) :
    (src.codeNameCols = none →
      register_stock_names src db batch = ⟨db, 0, []⟩) ∧
    (∀ code nameCol, src.codeNameCols = some (code, nameCol) →
      (((register_stock_names src db batch).insertedRows.map
          (fun p => p.1)).Nodup ∧
       (∀ c, c ∈ (register_stock_names src db batch).insertedRows.map
            (fun p => p.1) ↔
          (c ∈ (extractCodeName code nameCol batch).map (fun p => p.1) ∧
           c ∉ db.stockName.map (fun p => p.1))) ∧
       (register_stock_names src db batch).db.stockName =
         db.stockName ++ (register_stock_names src db batch).insertedRows) ∧
      ((register_stock_names src
          (register_stock_names src db batch).db batch).insertedRows = [] ∧
       (register_stock_names src
          (register_stock_names src db batch).db batch).db =
         (register_stock_names src db batch).db)) := by
  constructor
  · intro hnone
    unfold register_stock_names
    rw [hnone]
  · intro code nameCol hcols
    have hrows := register_insertedRows src db batch code nameCol hcols
    refine ⟨⟨?_, ?_, (register_db_eq src db batch).2.2⟩, ?_, ?_⟩
    · rw [hrows]
      unfold newStockRows
      have hsub : List.Sublist
          (((dedupByCode (extractCodeName code nameCol batch)).filter
            (fun p => !(db.stockName.map (fun q => q.1)).contains p.1)).map
              (fun p => p.1))
          ((dedupByCode (extractCodeName code nameCol batch)).map
            (fun p => p.1)) :=
        (List.filter_sublist _).map _
      exact (nodup_map_fst_dedupByCodeAux _ []).sublist hsub
    · intro c
      rw [hrows]
      exact mem_map_fst_newStockRows code nameCol db batch c
    · rw [register_insertedRows src _ batch code nameCol hcols]
      exact newStockRows_after_register src db batch code nameCol hcols
    · rw [register_db_some src _ batch code nameCol hcols,
        newStockRows_after_register src db batch code nameCol hcols]
      cases hdb : (register_stock_names src db batch).db
      simp

/-- C7 witness: a TWSE batch with an in-batch duplicate code and one code
already registered; the second run inserts nothing. -/
theorem register_stock_names_spec_witness :
    (taifex.codeNameCols = none →
      register_stock_names taifex (DB.mk [] [] []) [] = ⟨DB.mk [] [] [], 0, []⟩) ∧
    twse.codeNameCols = some ("SecurityCode", "StockName") ∧
    (register_stock_names twse
      (DB.mk [] [(Val.str "1101", Val.str "台泥")] [])
      [[("SecurityCode", Val.str "2330"), ("StockName", Val.str "台積電")],
       [("SecurityCode", Val.str "2330"), ("StockName", Val.str "台積電")],
       [("SecurityCode", Val.str "1101"), ("StockName", Val.str "台泥")]]).insertedRows
      = [(Val.str "2330", Val.str "台積電")] ∧
    (register_stock_names twse
      (register_stock_names twse
        (DB.mk [] [(Val.str "1101", Val.str "台泥")] [])
        [[("SecurityCode", Val.str "2330"), ("StockName", Val.str "台積電")],
         [("SecurityCode", Val.str "2330"), ("StockName", Val.str "台積電")],
         [("SecurityCode", Val.str "1101"), ("StockName", Val.str "台泥")]]).db
      [[("SecurityCode", Val.str "2330"), ("StockName", Val.str "台積電")],
       [("SecurityCode", Val.str "2330"), ("StockName", Val.str "台積電")],
       [("SecurityCode", Val.str "1101"), ("StockName", Val.str "台泥")]]).insertedRows
      = [] := by
  refine ⟨(register_stock_names_spec taifex (DB.mk [] [] []) []).1, by decide,
    by decide, ?_⟩
  exact ((register_stock_names_spec twse
    (DB.mk [] [(Val.str "1101", Val.str "台泥")] [])
    [[("SecurityCode", Val.str "2330"), ("StockName", Val.str "台積電")],
     [("SecurityCode", Val.str "2330"), ("StockName", Val.str "台積電")],
     [("SecurityCode", Val.str "1101"), ("StockName", Val.str "台泥")]]).2
    "SecurityCode" "StockName" (by decide)).2.1

/-- A record validated by the pydantic model pairs each schema field, in
order, with a value named after the field; an optional field absent from the
input comes out as null (the model's `None` default). -/
theorem validateRecord_forall2 (schema : List FieldSpec) (rec out : Record)
    (h : validateRecord schema rec = some out) :
    List.Forall₂ (fun fs p => p.1 = fs.name ∧
      (fs.required = false → lookupField rec fs.name = none →
        p.2 = Val.null)) schema out := by
  induction schema generalizing out with
  | nil =>
      rw [validateRecord] at h
      cases h
      exact List.Forall₂.nil
  | cons fs rest ih =>
      rw [validateRecord] at h
      cases hv : validateField fs (lookupField rec fs.name) with
      | none => rw [hv] at h; cases h
      | some v =>
          cases hr : validateRecord rest rec with
          | none => rw [hv, hr] at h; cases h
          | some vs =>
              rw [hv, hr] at h
              cases h
              refine List.Forall₂.cons ⟨rfl, fun hreq habs => ?_⟩ (ih vs hr)
              rw [habs, validateField, hreq] at hv
              simp at hv
              exact hv.symm

/-- When every record of the batch validates, `check_schema` succeeds and
validates them pointwise. -/
theorem check_schema_all_valid (schema : List FieldSpec)
    (batch : List Record)
    (h : ∀ r ∈ batch, (validateRecord schema r).isSome) :
    ∃ out, check_schema schema batch = some out ∧
      List.Forall₂ (fun r vr => validateRecord schema r = some vr) batch out := by
  induction batch with
  | nil => exact ⟨[], rfl, List.Forall₂.nil⟩
  | cons r rs ih =>
      obtain ⟨out, hout, hfa⟩ := ih (fun x hx => h x (List.mem_cons_of_mem _ hx))
      obtain ⟨v, hv⟩ := Option.isSome_iff_exists.mp (h r (List.mem_cons_self _ _))
      refine ⟨v :: out, ?_, List.Forall₂.cons hv hfa⟩
      rw [check_schema, hv, hout]

/-- One invalid record fails the whole `check_schema` call. -/
theorem check_schema_none_of_mem (schema : List FieldSpec)
    (batch : List Record) (r : Record) (hr : r ∈ batch)
    (hnone : validateRecord schema r = none) :
    check_schema schema batch = none := by
  induction batch with
  | nil => cases hr
  | cons x xs ih =>
      rw [check_schema]
      rcases List.mem_cons.mp hr with rfl | hr'
      · rw [hnone]
      · rw [ih hr']
        cases validateRecord schema x <;> rfl

/-- C3: schema validation is all-or-nothing. If every record of the batch
satisfies the schema, validation returns a batch of equal length in which
every optional field absent from its input record is null; if any record is
missing a required field or has an uncoercible value, the whole call raises,
and `upload_df` then persists nothing. -/
theorem check_schema_all_or_nothing (schema : List FieldSpec)
    (batch : List Record) :
    ((∀ r ∈ batch, (validateRecord schema r).isSome) →
      ∃ out, check_schema schema batch = some out ∧
        out.length = batch.length ∧
        List.Forall₂ (fun r vr =>
          List.Forall₂ (fun fs p => p.1 = fs.name ∧
            (fs.required = false → lookupField r fs.name = none →
              p.2 = Val.null)) schema vr) batch out) ∧
    ((∃ r ∈ batch, validateRecord schema r = none) →
      check_schema schema batch = none) ∧
    (∀ (src : Source) (db : DB) (raw : List Record),
      src.schema = schema →
      check_schema schema (preprocessRecords src.dropCols raw) = none →
      upload_df src db raw = none) := by
  refine ⟨fun h => ?_, fun h => ?_, fun src db raw hsrc hnone => ?_⟩
  · obtain ⟨out, hout, hfa⟩ := check_schema_all_valid schema batch h
    exact ⟨out, hout, hfa.length_eq.symm,
      hfa.imp (fun r vr hv => validateRecord_forall2 schema r vr hv)⟩
  · obtain ⟨r, hr, hnone⟩ := h
    exact check_schema_none_of_mem schema batch r hr hnone
  · unfold upload_df
    rw [hsrc, hnone]

/-- C3 witness: a valid TAIFEX batch (optional fields absent come out null)
and a TWSE batch whose only record misses the required `Date`. -/
theorem check_schema_all_or_nothing_witness :
    (∃ out, check_schema taifex.schema
        [[("Date", Val.str "2026-01-02"), ("Contract", Val.str "TX"),
          ("ContractMonth", Val.str "202601"), ("Volume", Val.int 100),
          ("TradingSession", Val.str "regular")]] = some out ∧
      out.length = 1 ∧
      List.Forall₂ (fun r vr =>
        List.Forall₂ (fun fs p => p.1 = fs.name ∧
          (fs.required = false → lookupField r fs.name = none →
            p.2 = Val.null)) taifex.schema vr)
        [[("Date", Val.str "2026-01-02"), ("Contract", Val.str "TX"),
          ("ContractMonth", Val.str "202601"), ("Volume", Val.int 100),
          ("TradingSession", Val.str "regular")]] out) ∧
    check_schema twse.schema [[("SecurityCode", Val.str "2330")]] = none ∧
    upload_df twse (DB.mk [] [] [])
      [[("SecurityCode", Val.str "2330"), ("StockName", Val.str "台積電")]]
      = none := by
  refine ⟨?_, ?_, ?_⟩
  · have := (check_schema_all_or_nothing taifex.schema
        [[("Date", Val.str "2026-01-02"), ("Contract", Val.str "TX"),
          ("ContractMonth", Val.str "202601"), ("Volume", Val.int 100),
          ("TradingSession", Val.str "regular")]]).1 (by decide)
    simpa using this
  · exact (check_schema_all_or_nothing twse.schema
      [[("SecurityCode", Val.str "2330")]]).2.1
      ⟨[("SecurityCode", Val.str "2330")], by decide, by decide⟩
  · exact (check_schema_all_or_nothing twse.schema
      (preprocessRecords twse.dropCols
        [[("SecurityCode", Val.str "2330"),
          ("StockName", Val.str "台積電")]])).2.2 twse (DB.mk [] [] [])
      [[("SecurityCode", Val.str "2330"), ("StockName", Val.str "台積電")]]
      rfl (by decide)

/-- C10: on a source with a declared code/name pair, a validation failure
inside `upload` on a nonempty fetched batch propagates after the stock-name
registration has committed: `DailyPrice` and `UploadDate` are untouched, but
`StockName` has gained exactly the batch's previously unseen codes. -/
theorem upload_registry_commit_on_validation_failure (src : Source) (db : DB)
    (batch : List Record) (date code nameCol : String)
    (hcols : src.codeNameCols = some (code, nameCol))
    (hdate : check_date db date = false)
    (hne : batch ≠ [])
    (hfail : check_schema src.schema (preprocessRecords src.dropCols batch)
      = none) :
    upload src db (CrawlResponse.ok batch) date =
      ⟨(register_stock_names src db batch).db, 1, true⟩ ∧
    (register_stock_names src db batch).db.dailyPrice = db.dailyPrice ∧
    (register_stock_names src db batch).db.uploadDate = db.uploadDate ∧
    (register_stock_names src db batch).db.stockName =
      db.stockName ++ (register_stock_names src db batch).insertedRows ∧
    (∀ c, c ∈ (register_stock_names src db batch).insertedRows.map
        (fun p => p.1) ↔
      (c ∈ (extractCodeName code nameCol batch).map (fun p => p.1) ∧
       c ∉ db.stockName.map (fun p => p.1))) := by
  have hlen : 0 < batch.length := List.length_pos.mpr hne
  have hnodf : upload_df src (register_stock_names src db batch).db batch
      = none := by
    unfold upload_df
    rw [hfail]
  refine ⟨?_, (register_db_eq src db batch).1, (register_db_eq src db batch).2.1,
    (register_db_eq src db batch).2.2, fun c => ?_⟩
  · unfold upload
    rw [hdate]
    simp only [Bool.false_eq_true, if_false, craw_data]
    rw [if_pos hlen, hnodf]
  · rw [register_insertedRows src db batch code nameCol hcols]
    exact mem_map_fst_newStockRows code nameCol db batch c

/-- C10 witness: a TWSE upload whose batch misses the required `Date` field;
the new code 2330 is committed to `StockName` even though the call raises. -/
theorem upload_registry_commit_on_validation_failure_witness :
    upload twse (DB.mk [] [(Val.str "1101", Val.str "台泥")] [])
      (CrawlResponse.ok
        [[("SecurityCode", Val.str "2330"), ("StockName", Val.str "台積電")]])
      "2026-01-02" =
      ⟨DB.mk []
        [(Val.str "1101", Val.str "台泥"), (Val.str "2330", Val.str "台積電")]
        [], 1, true⟩ := by
  rw [(upload_registry_commit_on_validation_failure twse
    (DB.mk [] [(Val.str "1101", Val.str "台泥")] [])
    [[("SecurityCode", Val.str "2330"), ("StockName", Val.str "台積電")]]
    "2026-01-02" "SecurityCode" "StockName" (by decide) (by decide)
    (by decide) (by decide)).1]
  decide

/-- C8 witness: an already-uploaded quarter returns 0 with no crawl; an
empty crawl returns 0; a one-row crawl validates, persists and returns 1. -/
theorem qr_upload_spec_witness :
    qr_upload (QDB.mk [] [(113, 4, 7)]) [] 113 4 =
      ⟨QDB.mk [] [(113, 4, 7)], 0, some 0⟩ ∧
    qr_upload (QDB.mk [] []) [] 113 4 = ⟨QDB.mk [] [], 1, some 0⟩ ∧
    qr_upload (QDB.mk [] [])
      [[("CompanyCode", Val.str "2330"), ("CompanyName", Val.str "台積電"),
        ("Industry", Val.str "半導體業"), ("Revenue", Val.float 592559000),
        ("Year", Val.int 113), ("Season", Val.int 1),
        ("TYPEK", Val.str "sii")]] 113 1 =
      ⟨QDB.mk
        [[("Year", Val.int 113), ("Season", Val.int 1),
          ("CompanyCode", Val.str "2330"), ("TYPEK", Val.str "sii"),
          ("CompanyName", Val.str "台積電"), ("Industry", Val.str "半導體業"),
          ("EPS", Val.null), ("ParValue", Val.null),
          ("Revenue", Val.int 592559000), ("OperatingIncome", Val.null),
          ("NonOperatingIncome", Val.null), ("NetIncome", Val.null)]]
        [(113, 1, 1)], 1, some 1⟩ := by
  refine ⟨(qr_upload_spec (QDB.mk [] [(113, 4, 7)]) [] 113 4).1 (by decide),
    (qr_upload_spec (QDB.mk [] []) [] 113 4).2.1 (by decide) rfl, ?_⟩
  exact (qr_upload_spec (QDB.mk [] []) _ 113 1).2.2
    [[("Year", Val.int 113), ("Season", Val.int 1),
      ("CompanyCode", Val.str "2330"), ("TYPEK", Val.str "sii"),
      ("CompanyName", Val.str "台積電"), ("Industry", Val.str "半導體業"),
      ("EPS", Val.null), ("ParValue", Val.null),
      ("Revenue", Val.int 592559000), ("OperatingIncome", Val.null),
      ("NonOperatingIncome", Val.null), ("NetIncome", Val.null)]]
    (by decide) (by decide) (by decide)

end TwStock
